import Mathlib

/-!
Verification of the prompt-injection filter in `prompt_security.py`
(`PromptInjectionDetector.analyze_input`, `sanitize_input`, `is_safe_input`
and the module-level `validate_call_data`).

Strings are modelled as `List Char`.  Python regular expressions are
modelled by a small executable backtracking matcher over an AST (`Re`)
that covers exactly the features used by the three pattern catalogs:
single-character classes, case-insensitive literals, concatenation,
prioritized alternation, optional groups, and greedy counted repetition
of single-character classes.  `findIter` reproduces `re.finditer`:
leftmost scanning, non-overlapping matches, greedy backtracking.
Dynamically-typed Python values entering the filter are modelled by
`PyVal`.
-/

/-- Lower-case an ASCII letter; other characters are unchanged.  Models the
effect of `re.IGNORECASE` on the ASCII patterns of the catalogs. -/
def asciiLower (c : Char) : Char :=
  if 'A' ≤ c ∧ c ≤ 'Z' then Char.ofNat (c.toNat + 32) else c

/-- The characters matched by Python's `\s` (and stripped by `str.strip`):
ASCII whitespace plus the Unicode whitespace code points. -/
def pySpaceChars : List Char :=
  [' ', '\t', '\n', '\r', '\x0b', '\x0c', '\x1c', '\x1d', '\x1e', '\x1f',
   '\x85', '\xa0', ' ', ' ', ' ', ' ', ' ',
   ' ', ' ', ' ', ' ', ' ', ' ', ' ',
   ' ', ' ', ' ', ' ', '　']

def isPySpace (c : Char) : Bool :=
  pySpaceChars.contains c

/-- The control characters removed by `sanitize_input`:
`[\x00-\x08\x0b\x0c\x0e-\x1f\x7f-\x9f]`. -/
def isCtrlStrip (c : Char) : Bool :=
  (c.toNat ≤ 0x08) || c.toNat == 0x0b || c.toNat == 0x0c ||
  (0x0e ≤ c.toNat && c.toNat ≤ 0x1f) || (0x7f ≤ c.toNat && c.toNat ≤ 0x9f)

/-- The characters removed by `sanitize_input`'s bracket strip:
`[<>{}()[\]` ++ backtick ++ `]`. -/
def isSanBracket (c : Char) : Bool :=
  ['<', '>', '\x7b', '\x7d', '(', ')', '[', ']', '\x60'].contains c

/-- The punctuation class of `sanitize_input`'s run removal: `[!@#$%^&*]`. -/
def isPunctSan (c : Char) : Bool :=
  ['!', '@', '#', '$', '%', '^', '&', '*'].contains c

/-- Python's `.` (no DOTALL): any character except a newline. -/
def isDot (c : Char) : Bool :=
  c != '\n'

/-- Regular-expression AST covering the features used by the catalogs.
Repetition is restricted to single-character classes, which is all the
source patterns use (`.{0,50}`, `\s+`, `\s*`, `.*`, `[..]{3,}`, `[A-Z]{5,}`). -/
inductive Re where
  | eps
  | cls (p : Char → Bool)
  | cat (a b : Re)
  | alt (a b : Re)
  | opt (a : Re)
  | rep (p : Char → Bool) (lo : Nat) (hi : Option Nat)

/-- Greedy backtracking for a counted repetition of a single-character class:
try the longest feasible count first, down to `lo`.  `i` is the count
currently being tried; `k` receives the rest of the input. -/
def tryFrom (k : List Char → Option (List Char)) (s : List Char) (lo : Nat) :
    Nat → Option (List Char)
  | 0 => if lo = 0 then k s else none
  | i + 1 =>
    if i + 1 < lo then none
    else
      match k (s.drop (i + 1)) with
      | some r => some r
      | none => tryFrom k s lo i

/-- Match `p{lo,hi}` greedily against a prefix of `s`, then continue with `k`. -/
def repM (p : Char → Bool) (lo : Nat) (hi : Option Nat) (s : List Char)
    (k : List Char → Option (List Char)) : Option (List Char) :=
  let run := (s.takeWhile p).length
  let m := match hi with
    | some h => min h run
    | none => run
  tryFrom k s lo m

/-- Backtracking matcher in continuation style: `matchM r s k` tries to match
`r` against a prefix of `s` and passes the remaining suffix to `k`;
alternatives are tried left-to-right, repetition greedily — the priority
order of Python's backtracking engine. -/
def matchM : Re → List Char → (List Char → Option (List Char)) →
    Option (List Char)
  | .eps, s, k => k s
  | .cls _, [], _ => none
  | .cls p, c :: rest, k => if p c then k rest else none
  | .cat a b, s, k => matchM a s (fun s' => matchM b s' k)
  | .alt a b, s, k => (matchM a s k).orElse (fun _ => matchM b s k)
  | .opt a, s, k => (matchM a s k).orElse (fun _ => k s)
  | .rep p lo hi, s, k => repM p lo hi s k

/-- One scanning pass of `re.finditer`: at each position try a match; on
success emit the matched text and resume after it (advancing one position
on an empty match), on failure advance one position.  `fuel` bounds the
number of scan steps; `s.length + 1` positions always suffice. -/
def findIterGo (r : Re) : Nat → List Char → List (List Char)
  | 0, _ => []
  | fuel + 1, s =>
    match matchM r s some with
    | some rest =>
      let m := s.take (s.length - rest.length)
      if rest.length < s.length then
        m :: findIterGo r fuel rest
      else
        match s with
        | [] => [m]
        | _ :: tail => m :: findIterGo r fuel tail
    | none =>
      match s with
      | [] => []
      | _ :: tail => findIterGo r fuel tail

/-- All non-overlapping matches of `r` in `s`, leftmost-first — the model of
`re.finditer(pattern, text)` restricted to the matched texts. -/
def findIter (r : Re) (s : List Char) : List (List Char) :=
  findIterGo r (s.length + 1) s

/-- A single case-insensitive literal character (catalog letters are written
in lower case). -/
def ciChar (c : Char) : Re :=
  Re.cls (fun x => asciiLower x == c)

/-- Case-insensitive literal string. -/
def lit (s : String) : Re :=
  s.toList.foldr (fun c r => Re.cat (ciChar c) r) Re.eps

def oneOf (cs : List Char) : Re :=
  Re.cls (fun x => cs.contains x)

def neverRe : Re :=
  Re.cls (fun _ => false)

/-- Prioritized alternation `a|b|...` (leftmost alternative preferred). -/
def ralt (l : List Re) : Re :=
  l.foldr Re.alt neverRe

def rcat (l : List Re) : Re :=
  l.foldr Re.cat Re.eps

/-- `.{0,n}` -/
def gap (n : Nat) : Re :=
  Re.rep isDot 0 (some n)

/-- `\s+` -/
def sps : Re :=
  Re.rep isPySpace 1 none

/-- `\s*` -/
def sp0 : Re :=
  Re.rep isPySpace 0 none

/-- `.*` -/
def dotStar : Re :=
  Re.rep isDot 0 none

/-- `["']` -/
def quoteCls : Re :=
  oneOf ['"', '\'']

/-- `self.high_risk_patterns` of `PromptInjectionDetector.__init__`, in
source order. -/
def high_risk_patterns : List Re :=
  [ -- (?i)(ignore|forget|disregard).{0,50}(previous|above|prior|earlier).{0,50}(instruction|prompt|rule|command)
    rcat [ralt [lit "ignore", lit "forget", lit "disregard"], gap 50,
          ralt [lit "previous", lit "above", lit "prior", lit "earlier"], gap 50,
          ralt [lit "instruction", lit "prompt", lit "rule", lit "command"]],
    -- (?i)(system|assistant|ai|bot).{0,20}(now|please|must|should).{0,20}(ignore|forget|respond|answer)
    rcat [ralt [lit "system", lit "assistant", lit "ai", lit "bot"], gap 20,
          ralt [lit "now", lit "please", lit "must", lit "should"], gap 20,
          ralt [lit "ignore", lit "forget", lit "respond", lit "answer"]],
    -- (?i)act\s+as\s+(a\s+)?(different|new|another|other)
    rcat [lit "act", sps, lit "as", sps, Re.opt (rcat [lit "a", sps]),
          ralt [lit "different", lit "new", lit "another", lit "other"]],
    -- (?i)(you\s+are|you're)\s+(now|actually|really)\s+(a|an)
    rcat [ralt [rcat [lit "you", sps, lit "are"],
                rcat [lit "you", Re.cls (fun x => x == '\''), lit "re"]], sps,
          ralt [lit "now", lit "actually", lit "really"], sps,
          ralt [lit "a", lit "an"]],
    -- (?i)(new|different|updated|changed)\s+(instructions|rules|guidelines|prompt)
    rcat [ralt [lit "new", lit "different", lit "updated", lit "changed"], sps,
          ralt [lit "instructions", lit "rules", lit "guidelines", lit "prompt"]],
    -- (?i)(assume|pretend|roleplay|act\s+like|behave\s+as)\s+(you\s+are|you're)
    rcat [ralt [lit "assume", lit "pretend", lit "roleplay",
                rcat [lit "act", sps, lit "like"],
                rcat [lit "behave", sps, lit "as"]], sps,
          ralt [rcat [lit "you", sps, lit "are"],
                rcat [lit "you", Re.cls (fun x => x == '\''), lit "re"]]],
    -- (?i)(developer|admin|root|system)\s+(mode|access|override|bypass)
    rcat [ralt [lit "developer", lit "admin", lit "root", lit "system"], sps,
          ralt [lit "mode", lit "access", lit "override", lit "bypass"]],
    -- (?i)(jailbreak|break\s+out|escape|override|bypass)
    ralt [lit "jailbreak", rcat [lit "break", sps, lit "out"], lit "escape",
          lit "override", lit "bypass"],
    -- (?i)(show|reveal|display|tell\s+me)\s+(your|the)\s+(prompt|instructions|rules|guidelines)
    rcat [ralt [lit "show", lit "reveal", lit "display",
                rcat [lit "tell", sps, lit "me"]], sps,
          ralt [lit "your", lit "the"], sps,
          ralt [lit "prompt", lit "instructions", lit "rules", lit "guidelines"]],
    -- (?i)(what\s+are|show\s+me)\s+(your|the)\s+(original|initial|system)\s+(prompt|instructions)
    rcat [ralt [rcat [lit "what", sps, lit "are"],
                rcat [lit "show", sps, lit "me"]], sps,
          ralt [lit "your", lit "the"], sps,
          ralt [lit "original", lit "initial", lit "system"], sps,
          ralt [lit "prompt", lit "instructions"]],
    -- (?i)print\s*\(\s*["'].*system.*["']\s*\)
    rcat [lit "print", sp0, oneOf ['('], sp0, quoteCls, dotStar, lit "system",
          dotStar, quoteCls, sp0, oneOf [')']],
    -- (?i)(execute|run|eval|import|subprocess|os\.system)
    ralt [lit "execute", lit "run", lit "eval", lit "import", lit "subprocess",
          lit "os.system"],
    -- (?i)(__|\$\{|<%|<\?|{{)
    ralt [lit "__", lit "$\x7b", lit "<%", lit "<?", lit "\x7b\x7b"],
    -- (?i)(script|javascript|python|bash|shell|cmd)
    ralt [lit "script", lit "javascript", lit "python", lit "bash", lit "shell",
          lit "cmd"],
    -- (?i)(api\s+key|secret|token|password|credential)
    ralt [rcat [lit "api", sps, lit "key"], lit "secret", lit "token",
          lit "password", lit "credential"],
    -- (?i)(database|sql|query|select|insert|update|delete)
    ralt [lit "database", lit "sql", lit "query", lit "select", lit "insert",
          lit "update", lit "delete"],
    -- (?i)(file|directory|path|folder|read|write|access)
    ralt [lit "file", lit "directory", lit "path", lit "folder", lit "read",
          lit "write", lit "access"]]

/-- `self.medium_risk_patterns`, in source order. -/
def medium_risk_patterns : List Re :=
  [ -- (?i)(please|now|must|should)\s+(ignore|skip|bypass|override)
    rcat [ralt [lit "please", lit "now", lit "must", lit "should"], sps,
          ralt [lit "ignore", lit "skip", lit "bypass", lit "override"]],
    -- (?i)(instead|but|however|actually|really)\s+(ignore|disregard|forget)
    rcat [ralt [lit "instead", lit "but", lit "however", lit "actually",
                lit "really"], sps,
          ralt [lit "ignore", lit "disregard", lit "forget"]],
    -- (?i)(tell|show|give)\s+me\s+(everything|all|any)
    rcat [ralt [lit "tell", lit "show", lit "give"], sps, lit "me", sps,
          ralt [lit "everything", lit "all", lit "any"]],
    -- (?i)(hypothetical|imagine|suppose|what\s+if)\s+(you|I|we)\s+(could|can|were)
    rcat [ralt [lit "hypothetical", lit "imagine", lit "suppose",
                rcat [lit "what", sps, lit "if"]], sps,
          ralt [lit "you", lit "i", lit "we"], sps,
          ralt [lit "could", lit "can", lit "were"]],
    -- [\[\]{}()<>].*[\[\]{}()<>]
    rcat [oneOf ['[', ']', '\x7b', '\x7d', '(', ')', '<', '>'], dotStar,
          oneOf ['[', ']', '\x7b', '\x7d', '(', ')', '<', '>']],
    -- ["'`]{3,}
    Re.rep (fun x => ['"', '\'', '\x60'].contains x) 3 none,
    -- [A-Z]{5,}
    Re.rep (fun x => decide ('A' ≤ x) && decide (x ≤ 'Z')) 5 none,
    -- (?i)(admin|root|sudo|privilege|escalate|elevate)
    ralt [lit "admin", lit "root", lit "sudo", lit "privilege", lit "escalate",
          lit "elevate"],
    -- (?i)(hack|crack|exploit|vulnerability|inject)
    ralt [lit "hack", lit "crack", lit "exploit", lit "vulnerability",
          lit "inject"],
    -- (?i)(malware|virus|trojan|backdoor|payload)
    ralt [lit "malware", lit "virus", lit "trojan", lit "backdoor",
          lit "payload"]]

/-- `self.low_risk_patterns`, in source order. -/
def low_risk_patterns : List Re :=
  [ralt [lit "test", lit "testing", lit "debug", lit "debugging"],
   ralt [lit "example", lit "sample", lit "demo", lit "demonstration"],
   ralt [lit "help", lit "assist", lit "support", lit "guidance"]]

/-- The `SecurityThreat` dataclass. -/
structure SecurityThreat where
  severity : String
  threat_type : String
  description : String
  matched_text : List Char
deriving DecidableEq

/-- Dynamically typed Python values reaching the filter. -/
inductive PyVal where
  | none
  | str (s : List Char)
  | int (n : Int)
  | bool (b : Bool)
deriving DecidableEq

def PyVal.isString : PyVal → Bool
  | .str _ => true
  | _ => false

def mkThreat (sev tt desc : String) (m : List Char) : SecurityThreat :=
  ⟨sev, tt, desc, m⟩

/-- One catalog loop of `analyze_input`: for each pattern, append one threat
per `finditer` match onto the accumulator. -/
def scanRules (rules : List Re) (sev tt desc : String) (s : List Char)
    (acc : List SecurityThreat) : List SecurityThreat :=
  rules.foldl (fun a r => a ++ (findIter r s).map (mkThreat sev tt desc)) acc

/-- `PromptInjectionDetector.analyze_input(text, context)`: empty or
non-string input yields no threats; otherwise the three catalogs are scanned
in sequence, high then medium then low. -/
def analyze_input (text : PyVal) (context : String) : List SecurityThreat :=
  match text with
  | PyVal.str s =>
    if s = [] then []
    else
      scanRules low_risk_patterns "low" "potentially_suspicious"
        ("Potentially suspicious content in " ++ context) s
        (scanRules medium_risk_patterns "medium" "suspicious_content"
          ("Suspicious content detected in " ++ context) s
          (scanRules high_risk_patterns "high" "prompt_injection"
            ("Potential prompt injection detected in " ++ context) s []))
  | _ => []

/-- `re.sub(r'\s+', ' ', s)`: each maximal whitespace run becomes one space. -/
def collapseWs : List Char → List Char
  | [] => []
  | [c] => if isPySpace c then [' '] else [c]
  | c :: d :: rest =>
    if isPySpace c then
      if isPySpace d then collapseWs (d :: rest)
      else ' ' :: collapseWs (d :: rest)
    else c :: collapseWs (d :: rest)

/-- `re.sub(r'[\x00-\x08\x0b\x0c\x0e-\x1f\x7f-\x9f]', '', s)`. -/
def rmCtrl (s : List Char) : List Char :=
  s.filter (fun c => !(isCtrlStrip c))

/-- `re.sub(r'[<>{}()[\]` ++ backtick ++ `]', '', s)`. -/
def rmBrackets (s : List Char) : List Char :=
  s.filter (fun c => !(isSanBracket c))

/-- Body of `rmPunct`, driven by fuel so that the recursion is structural
(each step consumes at least one character, so `s.length` steps suffice). -/
def rmPunctGo : Nat → List Char → List Char
  | 0, _ => []
  | _, [] => []
  | fuel + 1, c :: rest =>
    if isPunctSan c then
      let run := c :: rest.takeWhile isPunctSan
      let rest' := rest.dropWhile isPunctSan
      if 3 ≤ run.length then rmPunctGo fuel rest' else run ++ rmPunctGo fuel rest'
    else c :: rmPunctGo fuel rest

/-- `re.sub(r'[!@#$%^&*]{3,}', '', s)`: every maximal run of three or more
characters from the class is deleted. -/
def rmPunct (s : List Char) : List Char :=
  rmPunctGo s.length s

/-- Drop the maximal all-`p` suffix (the trailing half of `str.strip`). -/
def dropTrailing (p : Char → Bool) : List Char → List Char
  | [] => []
  | c :: rest =>
    let r := dropTrailing p rest
    if r = [] && p c then [] else c :: r

/-- Python `str.strip()`. -/
def pyStrip (s : List Char) : List Char :=
  dropTrailing isPySpace (s.dropWhile isPySpace)

/-- The six-step pipeline body of `sanitize_input` on a non-empty string. -/
def sanitizeCore (s : List Char) (max_length : Nat) : List Char :=
  pyStrip ((rmPunct (rmBrackets (rmCtrl (collapseWs s)))).take max_length)

/-- `PromptInjectionDetector.sanitize_input(text, max_length)`. -/
def sanitize_input (text : PyVal) (max_length : Nat) : List Char :=
  match text with
  | PyVal.str s => if s = [] then [] else sanitizeCore s max_length
  | _ => []

/-- `PromptInjectionDetector.is_safe_input(text, context)`: block exactly when
some returned threat has severity `"high"`; the full threat list is returned
either way. -/
def is_safe_input (text : PyVal) (context : String) :
    Bool × List SecurityThreat :=
  let threats := analyze_input text context
  let high_risk_threats := threats.filter (fun t => t.severity == "high")
  match high_risk_threats with
  | [] => (true, threats)
  | _ => (false, threats)

/-- `call_data.get(key, default)`. -/
def pyGet (d : List (String × PyVal)) (k : String) (dflt : PyVal) : PyVal :=
  match d.lookup k with
  | some v => v
  | Option.none => dflt

/-- `validate_call_data(call_data)`: scan and sanitize the four text fields
in the fixed order, aborting with a field-specific message and an empty
record on the first blocked field; `caller_phone` and `call_duration` are
copied verbatim at the end. -/
def validate_call_data (call_data : List (String × PyVal)) :
    Bool × String × List (String × PyVal) :=
  let caller_name := pyGet call_data "caller_name" (PyVal.str [])
  if (is_safe_input caller_name "caller_name").1 = false then
    (false, "Caller name contains suspicious content", [])
  else
    let d1 := [("caller_name", PyVal.str (sanitize_input caller_name 100))]
    let transcript := pyGet call_data "transcript" (PyVal.str [])
    if (is_safe_input transcript "transcript").1 = false then
      (false, "Transcript contains potential prompt injection", [])
    else
      let d2 := d1 ++ [("transcript", PyVal.str (sanitize_input transcript 5000))]
      let call_summary := pyGet call_data "call_summary" (PyVal.str [])
      if (is_safe_input call_summary "call_summary").1 = false then
        (false, "Call summary contains suspicious content", [])
      else
        let d3 := d2 ++ [("call_summary", PyVal.str (sanitize_input call_summary 500))]
        let call_outcome := pyGet call_data "call_outcome" (PyVal.str [])
        if (is_safe_input call_outcome "call_outcome").1 = false then
          (false, "Call outcome contains suspicious content", [])
        else
          let d4 := d3 ++ [("call_outcome", PyVal.str (sanitize_input call_outcome 50))]
          (true, "Input validated successfully",
            d4 ++ [("caller_phone", pyGet call_data "caller_phone" (PyVal.str [])),
                   ("call_duration", pyGet call_data "call_duration" (PyVal.int 0))])

/-- Instrumentation of `validate_call_data`: the context labels passed to
`is_safe_input`, in call order, following exactly the branch structure of
the source. -/
def scan_contexts (call_data : List (String × PyVal)) : List String :=
  let caller_name := pyGet call_data "caller_name" (PyVal.str [])
  if (is_safe_input caller_name "caller_name").1 = false then
    ["caller_name"]
  else
    let transcript := pyGet call_data "transcript" (PyVal.str [])
    if (is_safe_input transcript "transcript").1 = false then
      ["caller_name", "transcript"]
    else
      let call_summary := pyGet call_data "call_summary" (PyVal.str [])
      if (is_safe_input call_summary "call_summary").1 = false then
        ["caller_name", "transcript", "call_summary"]
      else
        let call_outcome := pyGet call_data "call_outcome" (PyVal.str [])
        if (is_safe_input call_outcome "call_outcome").1 = false then
          ["caller_name", "transcript", "call_summary", "call_outcome"]
        else
          ["caller_name", "transcript", "call_summary", "call_outcome"]

/-- All findings one severity catalog contributes in isolation: one threat per
`finditer` match, pattern order then match order. -/
def catalogFindings (rules : List Re) (sev tt desc : String) (s : List Char) :
    List SecurityThreat :=
  rules.flatMap (fun r => (findIter r s).map (mkThreat sev tt desc))

theorem scanRules_eq (rules : List Re) (sev tt desc : String) (s : List Char)
    (acc : List SecurityThreat) :
    scanRules rules sev tt desc s acc = acc ++ catalogFindings rules sev tt desc s := by
  induction rules generalizing acc with
  | nil => simp [scanRules, catalogFindings]
  | cons r rest ih =>
    show scanRules rest sev tt desc s (acc ++ (findIter r s).map (mkThreat sev tt desc)) = _
    rw [ih]
    simp [catalogFindings, List.append_assoc]

theorem analyze_input_eq (s : List Char) (ctx : String) :
    analyze_input (PyVal.str s) ctx =
      catalogFindings high_risk_patterns "high" "prompt_injection"
        ("Potential prompt injection detected in " ++ ctx) s ++
      catalogFindings medium_risk_patterns "medium" "suspicious_content"
        ("Suspicious content detected in " ++ ctx) s ++
      catalogFindings low_risk_patterns "low" "potentially_suspicious"
        ("Potentially suspicious content in " ++ ctx) s := by
  cases s with
  | nil => rfl
  | cons c cs =>
    show (if (c :: cs : List Char) = [] then ([] : List SecurityThreat) else
      scanRules low_risk_patterns "low" "potentially_suspicious"
        ("Potentially suspicious content in " ++ ctx) (c :: cs)
        (scanRules medium_risk_patterns "medium" "suspicious_content"
          ("Suspicious content detected in " ++ ctx) (c :: cs)
          (scanRules high_risk_patterns "high" "prompt_injection"
            ("Potential prompt injection detected in " ++ ctx) (c :: cs) []))) = _
    rw [if_neg (by simp)]
    rw [scanRules_eq, scanRules_eq, scanRules_eq]
    simp [List.append_assoc]

theorem catalogFindings_eq_nil (rules : List Re) (sev tt desc : String)
    (s : List Char) (h : ∀ r ∈ rules, findIter r s = []) :
    catalogFindings rules sev tt desc s = [] := by
  induction rules with
  | nil => rfl
  | cons r rest ih =>
    have hr := h r (by simp)
    simp only [catalogFindings, List.flatMap_cons, hr, List.map_nil, List.nil_append]
    exact ih (fun r' hr' => h r' (by simp [hr']))

theorem filter_isEmpty_eq_not_any {α : Type} (p : α → Bool) (l : List α) :
    (l.filter p).isEmpty = !(l.any p) := by
  induction l with
  | nil => rfl
  | cons a l ih => cases hpa : p a <;> simp [List.filter_cons, hpa, ih]

theorem is_safe_input_eq (text : PyVal) (context : String) :
    is_safe_input text context =
      (((analyze_input text context).filter (fun t => t.severity == "high")).isEmpty,
       analyze_input text context) := by
  simp only [is_safe_input]
  split <;> simp_all

/-- C5: `analyze_input` on any string input evaluates every rule of the three
catalogs in high→medium→low order with no early exit, emitting one threat per
`finditer` match, and the returned list keeps catalog order, rule order
within a catalog, and match order within a rule. -/
theorem analyze_input_catalog_order (s : List Char) (ctx : String) :
    analyze_input (PyVal.str s) ctx =
      catalogFindings high_risk_patterns "high" "prompt_injection"
        ("Potential prompt injection detected in " ++ ctx) s ++
      catalogFindings medium_risk_patterns "medium" "suspicious_content"
        ("Suspicious content detected in " ++ ctx) s ++
      catalogFindings low_risk_patterns "low" "potentially_suspicious"
        ("Potentially suspicious content in " ++ ctx) s :=
  analyze_input_eq s ctx

/-- C3: `is_safe_input` blocks exactly when the scan reports at least one
high-severity threat, and in both cases the full threat list is returned. -/
theorem is_safe_input_blocks_iff_high (text : PyVal) (context : String) :
    (is_safe_input text context).1 =
      !((analyze_input text context).any (fun t => t.severity == "high")) ∧
    (is_safe_input text context).2 = analyze_input text context := by
  rw [is_safe_input_eq]
  exact ⟨filter_isEmpty_eq_not_any _ _, rfl⟩

/-- C6: when no catalog pattern has any match in the text, `is_safe_input`
returns `allowed = true` together with an empty finding list. -/
theorem is_safe_input_of_no_matches (s : List Char) (ctx : String)
    (h : ∀ r ∈ high_risk_patterns ++ medium_risk_patterns ++ low_risk_patterns,
      findIter r s = []) :
    is_safe_input (PyVal.str s) ctx = (true, []) := by
  have hana : analyze_input (PyVal.str s) ctx = [] := by
    rw [analyze_input_eq]
    rw [catalogFindings_eq_nil _ _ _ _ _ (fun r hr => h r (by simp [hr])),
        catalogFindings_eq_nil _ _ _ _ _ (fun r hr => h r (by simp [hr])),
        catalogFindings_eq_nil _ _ _ _ _ (fun r hr => h r (by simp [hr]))]
    rfl
  rw [is_safe_input_eq, hana]
  rfl

/-- Witness for C6 at a benign concrete transcript. -/
theorem is_safe_input_of_no_matches_witness :
    is_safe_input (PyVal.str ("Good morning".toList)) "transcript" = (true, []) :=
  is_safe_input_of_no_matches _ _ (by decide)

/-- C7: a non-string value entering the scanner or the sanitizer produces no
findings and the empty cleaned text (never an error), and a key absent from
the record is replaced by the `get` default. -/
theorem nonstring_input_harmless :
    (∀ (v : PyVal) (ctx : String) (n : Nat), v.isString = false →
        analyze_input v ctx = [] ∧ sanitize_input v n = []) ∧
    (∀ (d : List (String × PyVal)) (k : String) (dflt : PyVal),
        d.lookup k = Option.none → pyGet d k dflt = dflt) := by
  constructor
  · intro v ctx n hv
    cases v <;> simp_all [analyze_input, sanitize_input, PyVal.isString]
  · intro d k dflt h
    simp [pyGet, h]

/-- Witness for C7 at an integer field value and a missing key. -/
theorem nonstring_input_harmless_witness :
    (analyze_input (PyVal.int 42) "transcript" = [] ∧
      sanitize_input (PyVal.int 42) 100 = []) ∧
    pyGet [] "caller_name" (PyVal.str []) = PyVal.str [] :=
  ⟨nonstring_input_harmless.1 (PyVal.int 42) "transcript" 100 (by decide),
   nonstring_input_harmless.2 [] "caller_name" (PyVal.str []) (by decide)⟩

/-- C9: sanitizing `"Hello!!!   world\x07"` with max length 100 collapses the
whitespace run, removes the BEL control character and deletes the
triple-bang run, yielding exactly `"Hello world"`. -/
theorem sanitize_concrete_hello :
    sanitize_input (PyVal.str ("Hello!!!   world\x07".toList)) 100 =
      "Hello world".toList := by
  decide

/-- C10: the empty input mapping is accepted: every text field defaults to
the empty string (which scans clean and sanitizes to itself), `caller_phone`
defaults to `""` and `call_duration` to the integer `0`. -/
theorem validate_call_data_empty :
    validate_call_data [] =
      (true, "Input validated successfully",
        [("caller_name", PyVal.str []), ("transcript", PyVal.str []),
         ("call_summary", PyVal.str []), ("call_outcome", PyVal.str []),
         ("caller_phone", PyVal.str []), ("call_duration", PyVal.int 0)]) := by
  decide

/-- C2: the validator is fail-fast: the four text fields are checked in the
fixed order, and the first field whose admission check fails makes the
validator return `ok = false` with that field's message and an empty record,
with no later field ever passed to the scanner. -/
theorem validate_call_data_fail_fast (d : List (String × PyVal)) :
    ((is_safe_input (pyGet d "caller_name" (PyVal.str [])) "caller_name").1 = false →
      validate_call_data d = (false, "Caller name contains suspicious content", []) ∧
      scan_contexts d = ["caller_name"]) ∧
    ((is_safe_input (pyGet d "caller_name" (PyVal.str [])) "caller_name").1 = true →
     (is_safe_input (pyGet d "transcript" (PyVal.str [])) "transcript").1 = false →
      validate_call_data d = (false, "Transcript contains potential prompt injection", []) ∧
      scan_contexts d = ["caller_name", "transcript"]) ∧
    ((is_safe_input (pyGet d "caller_name" (PyVal.str [])) "caller_name").1 = true →
     (is_safe_input (pyGet d "transcript" (PyVal.str [])) "transcript").1 = true →
     (is_safe_input (pyGet d "call_summary" (PyVal.str [])) "call_summary").1 = false →
      validate_call_data d = (false, "Call summary contains suspicious content", []) ∧
      scan_contexts d = ["caller_name", "transcript", "call_summary"]) ∧
    ((is_safe_input (pyGet d "caller_name" (PyVal.str [])) "caller_name").1 = true →
     (is_safe_input (pyGet d "transcript" (PyVal.str [])) "transcript").1 = true →
     (is_safe_input (pyGet d "call_summary" (PyVal.str [])) "call_summary").1 = true →
     (is_safe_input (pyGet d "call_outcome" (PyVal.str [])) "call_outcome").1 = false →
      validate_call_data d = (false, "Call outcome contains suspicious content", []) ∧
      scan_contexts d = ["caller_name", "transcript", "call_summary", "call_outcome"]) := by
  refine ⟨?_, ?_, ?_, ?_⟩
  · intro h1
    constructor <;> simp [validate_call_data, scan_contexts, h1]
  · intro h1 h2
    constructor <;> simp [validate_call_data, scan_contexts, h1, h2]
  · intro h1 h2 h3
    constructor <;> simp [validate_call_data, scan_contexts, h1, h2, h3]
  · intro h1 h2 h3 h4
    constructor <;> simp [validate_call_data, scan_contexts, h1, h2, h3, h4]

/-- Witness for C2: a record whose caller name matches the jailbreak pattern
is rejected at the first field, with only `caller_name` ever scanned. -/
theorem validate_call_data_fail_fast_witness :
    validate_call_data [("caller_name", PyVal.str ("jailbreak".toList))] =
      (false, "Caller name contains suspicious content", []) ∧
    scan_contexts [("caller_name", PyVal.str ("jailbreak".toList))] =
      ["caller_name"] :=
  (validate_call_data_fail_fast _).1 (by decide)

/-- C8: when validation succeeds the returned record holds exactly the six
fixed keys, with `caller_phone` and `call_duration` copied verbatim from the
input; when validation fails the returned record is empty. -/
theorem validate_call_data_record_shape (d : List (String × PyVal)) :
    ((validate_call_data d).1 = true →
      (validate_call_data d).2.2 =
        [("caller_name",
            PyVal.str (sanitize_input (pyGet d "caller_name" (PyVal.str [])) 100)),
         ("transcript",
            PyVal.str (sanitize_input (pyGet d "transcript" (PyVal.str [])) 5000)),
         ("call_summary",
            PyVal.str (sanitize_input (pyGet d "call_summary" (PyVal.str [])) 500)),
         ("call_outcome",
            PyVal.str (sanitize_input (pyGet d "call_outcome" (PyVal.str [])) 50)),
         ("caller_phone", pyGet d "caller_phone" (PyVal.str [])),
         ("call_duration", pyGet d "call_duration" (PyVal.int 0))]) ∧
    ((validate_call_data d).1 = false → (validate_call_data d).2.2 = []) := by
  simp only [validate_call_data]
  split
  · exact ⟨fun h => by simp_all, fun _ => rfl⟩
  · split
    · exact ⟨fun h => by simp_all, fun _ => rfl⟩
    · split
      · exact ⟨fun h => by simp_all, fun _ => rfl⟩
      · split
        · exact ⟨fun h => by simp_all, fun _ => rfl⟩
        · exact ⟨fun _ => rfl, fun h => by simp_all⟩

/-- Witness for C8: a record carrying only a phone number passes and the
phone value reappears verbatim in the six-key output record. -/
theorem validate_call_data_record_shape_witness :
    (validate_call_data [("caller_phone", PyVal.str ("555-1234".toList))]).2.2 =
      [("caller_name",
          PyVal.str (sanitize_input
            (pyGet [("caller_phone", PyVal.str ("555-1234".toList))]
              "caller_name" (PyVal.str [])) 100)),
       ("transcript",
          PyVal.str (sanitize_input
            (pyGet [("caller_phone", PyVal.str ("555-1234".toList))]
              "transcript" (PyVal.str [])) 5000)),
       ("call_summary",
          PyVal.str (sanitize_input
            (pyGet [("caller_phone", PyVal.str ("555-1234".toList))]
              "call_summary" (PyVal.str [])) 500)),
       ("call_outcome",
          PyVal.str (sanitize_input
            (pyGet [("caller_phone", PyVal.str ("555-1234".toList))]
              "call_outcome" (PyVal.str [])) 50)),
       ("caller_phone",
          pyGet [("caller_phone", PyVal.str ("555-1234".toList))]
            "caller_phone" (PyVal.str [])),
       ("call_duration",
          pyGet [("caller_phone", PyVal.str ("555-1234".toList))]
            "call_duration" (PyVal.int 0))] :=
  (validate_call_data_record_shape _).1 (by decide)

theorem mem_rmPunctGo {a : Char} : ∀ (fuel : Nat) (l : List Char),
    a ∈ rmPunctGo fuel l → a ∈ l := by
  intro fuel
  induction fuel with
  | zero => intro l h; simp [rmPunctGo] at h
  | succ fuel ih =>
    intro l h
    match l with
    | [] => simp [rmPunctGo] at h
    | c :: rest =>
      simp only [rmPunctGo] at h
      split at h
      · split at h
        · have := ih _ h
          exact List.mem_cons_of_mem _ ((List.dropWhile_sublist _).subset this)
        · rcases List.mem_append.mp h with h' | h'
          · rcases List.mem_cons.mp h' with h'' | h''
            · exact h'' ▸ List.mem_cons_self _ _
            · exact List.mem_cons_of_mem _ ((List.takeWhile_sublist _).subset h'')
          · exact List.mem_cons_of_mem _ ((List.dropWhile_sublist _).subset (ih _ h'))
      · rcases List.mem_cons.mp h with h' | h'
        · exact h' ▸ List.mem_cons_self _ _
        · exact List.mem_cons_of_mem _ (ih _ h')

theorem mem_rmPunct {a : Char} {l : List Char} (h : a ∈ rmPunct l) : a ∈ l :=
  mem_rmPunctGo _ _ h

theorem mem_dropTrailing {p : Char → Bool} {a : Char} : ∀ {l : List Char},
    a ∈ dropTrailing p l → a ∈ l := by
  intro l
  induction l with
  | nil => intro h; simp [dropTrailing] at h
  | cons c rest ih =>
    intro h
    simp only [dropTrailing] at h
    split at h
    · simp at h
    · rcases List.mem_cons.mp h with h' | h'
      · exact h' ▸ List.mem_cons_self _ _
      · exact List.mem_cons_of_mem _ (ih h')

theorem mem_pyStrip {a : Char} {l : List Char} (h : a ∈ pyStrip l) : a ∈ l :=
  (List.dropWhile_sublist _).subset (mem_dropTrailing h)

theorem length_dropTrailing_le (p : Char → Bool) : ∀ (l : List Char),
    (dropTrailing p l).length ≤ l.length := by
  intro l
  induction l with
  | nil => simp [dropTrailing]
  | cons c rest ih =>
    simp only [dropTrailing]
    split
    · simp
    · simpa using ih

theorem length_pyStrip_le (l : List Char) : (pyStrip l).length ≤ l.length :=
  Nat.le_trans (length_dropTrailing_le _ _) ((List.dropWhile_sublist _).length_le)

theorem mem_sanitizeCore {a : Char} {s : List Char} {n : Nat}
    (h : a ∈ sanitizeCore s n) :
    a ∈ collapseWs s ∧ isCtrlStrip a = false ∧ isSanBracket a = false := by
  have h1 : a ∈ rmPunct (rmBrackets (rmCtrl (collapseWs s))) :=
    (List.take_sublist _ _).subset (mem_pyStrip h)
  have h2 : a ∈ rmBrackets (rmCtrl (collapseWs s)) := mem_rmPunct h1
  have h3 := List.mem_filter.mp h2
  have h4 := List.mem_filter.mp h3.1
  refine ⟨h4.1, ?_, ?_⟩
  · simpa using h4.2
  · simpa using h3.2

/-- C4: on every string input the sanitizer's result has length at most
`max_length` and contains no character of the stripped control ranges and
none of the stripped brackets, parentheses, braces or backtick. -/
theorem sanitize_output_clean (v : PyVal) (n : Nat) :
    (sanitize_input v n).length ≤ n ∧
    (sanitize_input v n).all
      (fun c => !(isCtrlStrip c) && !(isSanBracket c)) = true := by
  match v with
  | PyVal.str s =>
    by_cases hs : s = []
    · simp [sanitize_input, hs]
    · have he : sanitize_input (PyVal.str s) n = sanitizeCore s n := by
        simp [sanitize_input, hs]
      rw [he]
      constructor
      · calc (sanitizeCore s n).length
            ≤ ((rmPunct (rmBrackets (rmCtrl (collapseWs s)))).take n).length :=
              length_pyStrip_le _
          _ ≤ n := by simp [List.length_take]
      · rw [List.all_eq_true]
        intro c hc
        have := mem_sanitizeCore hc
        simp [this.2.1, this.2.2]
  | PyVal.none => simp [sanitize_input]
  | PyVal.int m => simp [sanitize_input]
  | PyVal.bool b => simp [sanitize_input]

/-- No two adjacent whitespace characters anywhere in the list. -/
def noWs2 : List Char → Bool
  | a :: b :: rest => !(isPySpace a && isPySpace b) && noWs2 (b :: rest)
  | _ => true

/-- No three adjacent characters of the sanitizer's punctuation class. -/
def noRun3 : List Char → Bool
  | a :: b :: c :: rest =>
    !(isPunctSan a && isPunctSan b && isPunctSan c) && noRun3 (b :: c :: rest)
  | _ => true

theorem wsSpace_collapseWs : ∀ (l : List Char), ∀ c ∈ collapseWs l,
    isPySpace c = true → c = ' ' := by
  intro l
  induction l with
  | nil => intro c hc; simp [collapseWs] at hc
  | cons a rest ih =>
    intro c hc hw
    match rest with
    | [] =>
      simp only [collapseWs] at hc
      split at hc <;> simp_all
    | d :: rest2 =>
      simp only [collapseWs] at hc
      split at hc
      · split at hc
        · exact ih c hc hw
        · rcases List.mem_cons.mp hc with h' | h'
          · exact h'
          · exact ih c h' hw
      · rcases List.mem_cons.mp hc with h' | h'
        · simp_all
        · exact ih c h' hw

theorem noWs2_tail {a : Char} {l : List Char} (h : noWs2 (a :: l) = true) :
    noWs2 l = true := by
  match l with
  | [] => rfl
  | b :: t =>
    simp only [noWs2, Bool.and_eq_true] at h
    exact h.2

theorem collapseWs_fix : ∀ (l : List Char),
    (∀ c ∈ l, isPySpace c = true → c = ' ') → noWs2 l = true →
    collapseWs l = l := by
  intro l
  induction l with
  | nil => intro _ _; rfl
  | cons a rest ih =>
    intro hmem hws
    match rest with
    | [] =>
      simp only [collapseWs]
      split
      · next ha => rw [hmem a (by simp) ha]
      · rfl
    | d :: rest2 =>
      simp only [collapseWs]
      split
      · next ha =>
        have hd : isPySpace d = false := by
          have := hws
          simp only [noWs2, Bool.and_eq_true, Bool.not_eq_true',
            Bool.and_eq_false_iff] at this
          rcases this.1 with h' | h'
          · rw [ha] at h'; cases h'
          · exact h'
        rw [if_neg (by simp [hd])]
        rw [hmem a (by simp) ha]
        rw [ih (fun c hc hw => hmem c (by simp [hc]) hw) (noWs2_tail hws)]
      · rw [ih (fun c hc hw => hmem c (by simp [hc]) hw) (noWs2_tail hws)]

theorem noRun3_tail {a : Char} {l : List Char} (h : noRun3 (a :: l) = true) :
    noRun3 l = true := by
  match l with
  | [] => rfl
  | [b] => rfl
  | b :: c :: t =>
    simp only [noRun3, Bool.and_eq_true] at h
    exact h.2

theorem noRun3_append_left : ∀ (l t : List Char),
    noRun3 (l ++ t) = true → noRun3 l = true := by
  intro l t
  induction l with
  | nil => intro _; rfl
  | cons a l2 ih =>
    intro h
    match l2, ih with
    | [], _ => rfl
    | [b], _ => rfl
    | b :: c :: l4, ih =>
      simp only [List.cons_append, noRun3, Bool.and_eq_true] at h ⊢
      exact ⟨h.1, ih (by simpa using h.2)⟩

theorem noRun3_dropWhile (p : Char → Bool) : ∀ (l : List Char),
    noRun3 l = true → noRun3 (l.dropWhile p) = true := by
  intro l
  induction l with
  | nil => intro _; rfl
  | cons a l2 ih =>
    intro h
    rw [List.dropWhile_cons]
    split
    · exact ih (noRun3_tail h)
    · exact h

theorem dropTrailing_pfx (p : Char → Bool) : ∀ (l : List Char),
    ∃ t, dropTrailing p l ++ t = l := by
  intro l
  induction l with
  | nil => exact ⟨[], rfl⟩
  | cons c rest ih =>
    simp only [dropTrailing]
    split
    · exact ⟨c :: rest, rfl⟩
    · obtain ⟨t, ht⟩ := ih
      exact ⟨t, by simp [ht]⟩

theorem rmPunctGo_nil : ∀ (fuel : Nat), rmPunctGo fuel [] = [] := by
  intro fuel
  cases fuel <;> rfl

theorem dropWhile_head_false (p : Char → Bool) (l : List Char) :
    ∀ e t, l.dropWhile p = e :: t → p e = false := by
  intro e t h
  have hh := List.head?_dropWhile_not p l
  rw [h] at hh
  exact hh

theorem noRun3_cons_np {R : List Char} (x : Char)
    (hR : R = [] ∨ ∃ e t, R = e :: t ∧ isPunctSan e = false)
    (h : noRun3 R = true) : noRun3 (x :: R) = true := by
  rcases hR with h' | ⟨e, t, he, hp⟩
  · subst h'; rfl
  · subst he
    match t with
    | [] => rfl
    | c :: u =>
      simp only [noRun3, Bool.and_eq_true] at h ⊢
      exact ⟨by simp [hp], h⟩

theorem noRun3_cons2_np {R : List Char} (x y : Char)
    (hR : R = [] ∨ ∃ e t, R = e :: t ∧ isPunctSan e = false)
    (h : noRun3 R = true) : noRun3 (x :: y :: R) = true := by
  rcases hR with h' | ⟨e, t, he, hp⟩
  · subst h'; rfl
  · subst he
    have h1 : noRun3 (y :: e :: t) = true :=
      noRun3_cons_np y (Or.inr ⟨e, t, rfl, hp⟩) h
    show (!(isPunctSan x && isPunctSan y && isPunctSan e) &&
      noRun3 (y :: e :: t)) = true
    rw [h1]
    simp [hp]

theorem noRun3_cons_nphead {R : List Char} {x : Char}
    (hx : isPunctSan x = false) (h : noRun3 R = true) :
    noRun3 (x :: R) = true := by
  match R with
  | [] => rfl
  | [b] => rfl
  | b :: d :: u =>
    show (!(isPunctSan x && isPunctSan b && isPunctSan d) &&
      noRun3 (b :: d :: u)) = true
    rw [h]
    simp [hx]

theorem rmPunctGo_shape : ∀ (fuel : Nat) (l : List Char),
    (∀ e t, l = e :: t → isPunctSan e = false) →
    rmPunctGo fuel l = [] ∨
      ∃ e t', rmPunctGo fuel l = e :: t' ∧ isPunctSan e = false := by
  intro fuel l h
  match l with
  | [] => exact Or.inl (rmPunctGo_nil fuel)
  | e :: t =>
    have hp := h e t rfl
    match fuel with
    | 0 => exact Or.inl rfl
    | fuel + 1 =>
      simp only [rmPunctGo, hp]
      exact Or.inr ⟨e, rmPunctGo fuel t, by simp, hp⟩

theorem noRun3_rmPunctGo : ∀ (fuel : Nat) (l : List Char),
    l.length ≤ fuel → noRun3 (rmPunctGo fuel l) = true := by
  intro fuel
  induction fuel with
  | zero => intro l _; cases l <;> rfl
  | succ fuel ih =>
    intro l hlen
    match l with
    | [] => rfl
    | c :: rest =>
      have hrest : rest.length ≤ fuel := by
        simpa using Nat.le_of_succ_le_succ (by simpa using hlen)
      have hrest' : (rest.dropWhile isPunctSan).length ≤ fuel :=
        Nat.le_trans ((List.dropWhile_sublist _).length_le) hrest
      simp only [rmPunctGo]
      split
      · split
        · exact ih _ hrest'
        · next hshort =>
          have hRsh := rmPunctGo_shape fuel (rest.dropWhile isPunctSan)
            (dropWhile_head_false _ _)
          have hRok := ih _ hrest'
          have htw : (rest.takeWhile isPunctSan).length ≤ 1 := by
            simp only [List.length_cons, Nat.not_le] at hshort
            omega
          rcases Nat.lt_or_ge (rest.takeWhile isPunctSan).length 1 with h1 | h1
          · have : rest.takeWhile isPunctSan = [] := by
              cases hx : rest.takeWhile isPunctSan with
              | nil => rfl
              | cons x xs => rw [hx] at h1; simp at h1
            simp only [this, List.nil_append]
            exact noRun3_cons_np c hRsh hRok
          · have hone : (rest.takeWhile isPunctSan).length = 1 := Nat.le_antisymm htw h1
            obtain ⟨d, hd⟩ := List.length_eq_one.mp hone
            simp only [hd, List.cons_append, List.singleton_append]
            exact noRun3_cons2_np c d hRsh hRok
      · next hc =>
        exact noRun3_cons_nphead (Bool.not_eq_true _ ▸ eq_false_of_ne_true hc)
          (ih _ hrest)

theorem takeWhile_len2 (p : Char → Bool) : ∀ (l : List Char),
    2 ≤ (l.takeWhile p).length →
    ∃ a b t, l = a :: b :: t ∧ p a = true ∧ p b = true := by
  intro l h
  match l with
  | [] => simp [List.takeWhile] at h
  | a :: l2 =>
    by_cases hpa : p a = true
    · rw [List.takeWhile_cons_of_pos hpa] at h
      simp only [List.length_cons] at h
      have h2 : 1 ≤ (l2.takeWhile p).length := by omega
      match l2 with
      | [] => simp [List.takeWhile] at h2
      | b :: l3 =>
        by_cases hpb : p b = true
        · exact ⟨a, b, l3, rfl, hpa, hpb⟩
        · rw [List.takeWhile_cons_of_neg (by simp [hpb])] at h2
          simp at h2
    · rw [List.takeWhile_cons_of_neg (by simp [hpa])] at h
      simp at h

theorem rmPunctGo_fix : ∀ (fuel : Nat) (l : List Char),
    l.length ≤ fuel → noRun3 l = true → rmPunctGo fuel l = l := by
  intro fuel
  induction fuel with
  | zero =>
    intro l hlen _
    have : l = [] := List.length_eq_zero.mp (Nat.le_zero.mp hlen)
    simp [this, rmPunctGo_nil]
  | succ fuel ih =>
    intro l hlen h3
    match l with
    | [] => rfl
    | c :: rest =>
      have hrest : rest.length ≤ fuel := by
        simpa using Nat.le_of_succ_le_succ (by simpa using hlen)
      simp only [rmPunctGo]
      split
      · next hc =>
        split
        · next hlong =>
          exfalso
          have h2 : 2 ≤ (rest.takeWhile isPunctSan).length := by
            simp only [List.length_cons] at hlong
            omega
          obtain ⟨a, b, t, hab, hpa, hpb⟩ := takeWhile_len2 _ rest h2
          subst hab
          simp [noRun3, hc, hpa, hpb] at h3
        · have hfix : rmPunctGo fuel (rest.dropWhile isPunctSan) =
              rest.dropWhile isPunctSan :=
            ih _ (Nat.le_trans ((List.dropWhile_sublist _).length_le) hrest)
              (noRun3_dropWhile _ _ (noRun3_tail h3))
          rw [hfix]
          simp [List.takeWhile_append_dropWhile]
      · rw [ih _ hrest (noRun3_tail h3)]

theorem rmPunct_fix {l : List Char} (h : noRun3 l = true) : rmPunct l = l :=
  rmPunctGo_fix l.length l (Nat.le_refl _) h

theorem noRun3_rmPunct (l : List Char) : noRun3 (rmPunct l) = true :=
  noRun3_rmPunctGo l.length l (Nat.le_refl _)

theorem dropWhile_eq_self_of_head {p : Char → Bool} {l : List Char}
    (h : ∀ e t, l = e :: t → p e = false) : l.dropWhile p = l := by
  match l with
  | [] => rfl
  | e :: t => exact List.dropWhile_cons_of_neg (by simp [h e t rfl])

theorem dropTrailing_idem (p : Char → Bool) : ∀ (l : List Char),
    dropTrailing p (dropTrailing p l) = dropTrailing p l := by
  intro l
  induction l with
  | nil => rfl
  | cons c rest ih =>
    simp only [dropTrailing]
    split
    · rfl
    · next hcond =>
      simp only [dropTrailing, ih]
      rw [if_neg hcond]

theorem dropTrailing_head {p : Char → Bool} {l : List Char} {c : Char}
    {t : List Char} (h : dropTrailing p l = c :: t) : ∃ t2, l = c :: t2 := by
  match l with
  | [] => simp [dropTrailing] at h
  | e :: rest =>
    simp only [dropTrailing] at h
    split at h
    · cases h
    · rcases h with ⟨rfl, _⟩
      exact ⟨rest, rfl⟩

theorem pyStrip_idem (l : List Char) : pyStrip (pyStrip l) = pyStrip l := by
  have hdw : (pyStrip l).dropWhile isPySpace = pyStrip l := by
    apply dropWhile_eq_self_of_head
    intro e t het
    obtain ⟨t2, ht2⟩ := dropTrailing_head het
    exact dropWhile_head_false isPySpace l e t2 ht2
  show dropTrailing isPySpace ((pyStrip l).dropWhile isPySpace) = pyStrip l
  rw [hdw]
  exact dropTrailing_idem isPySpace (l.dropWhile isPySpace)

theorem length_sanitizeCore_le (s : List Char) (n : Nat) :
    (sanitizeCore s n).length ≤ n :=
  Nat.le_trans (length_pyStrip_le _) (by simp [List.length_take])

theorem noRun3_sanitizeCore (s : List Char) (n : Nat) :
    noRun3 (sanitizeCore s n) = true := by
  have h1 : noRun3 ((rmPunct (rmBrackets (rmCtrl (collapseWs s)))).take n) = true := by
    apply noRun3_append_left _ ((rmPunct (rmBrackets (rmCtrl (collapseWs s)))).drop n)
    rw [List.take_append_drop]
    exact noRun3_rmPunct _
  have h2 := noRun3_dropWhile isPySpace _ h1
  obtain ⟨t, ht⟩ := dropTrailing_pfx isPySpace
    (((rmPunct (rmBrackets (rmCtrl (collapseWs s)))).take n).dropWhile isPySpace)
  refine noRun3_append_left _ t ?_
  show noRun3 (dropTrailing isPySpace
    (((rmPunct (rmBrackets (rmCtrl (collapseWs s)))).take n).dropWhile isPySpace)
    ++ t) = true
  rw [ht]
  exact h2

theorem sanitizeCore_fix (s : List Char) (n : Nat)
    (h : noWs2 (sanitizeCore s n) = true) :
    sanitizeCore (sanitizeCore s n) n = sanitizeCore s n := by
  have hcw : collapseWs (sanitizeCore s n) = sanitizeCore s n := by
    apply collapseWs_fix _ _ h
    intro c hc hw
    exact wsSpace_collapseWs s c (mem_sanitizeCore hc).1 hw
  have hctrl : rmCtrl (sanitizeCore s n) = sanitizeCore s n :=
    List.filter_eq_self.mpr (fun a ha => by simp [(mem_sanitizeCore ha).2.1])
  have hbr : rmBrackets (sanitizeCore s n) = sanitizeCore s n :=
    List.filter_eq_self.mpr (fun a ha => by simp [(mem_sanitizeCore ha).2.2])
  have hpu : rmPunct (sanitizeCore s n) = sanitizeCore s n :=
    rmPunct_fix (noRun3_sanitizeCore s n)
  have htk : (sanitizeCore s n).take n = sanitizeCore s n :=
    List.take_of_length_le (length_sanitizeCore_le s n)
  have hst : pyStrip (sanitizeCore s n) = sanitizeCore s n :=
    pyStrip_idem ((rmPunct (rmBrackets (rmCtrl (collapseWs s)))).take n)
  show pyStrip ((rmPunct (rmBrackets (rmCtrl (collapseWs (sanitizeCore s n))))).take n) =
    sanitizeCore s n
  rw [hcw, hctrl, hbr, hpu, htk, hst]

/-- C1 amended: sanitize is idempotent on every input whose sanitized form
contains no two adjacent whitespace characters (a second pass only collapses
adjacent-space runs left behind by the later removal steps). -/
theorem sanitize_idempotent_of_no_double_space (s : List Char) (n : Nat)
    (h : noWs2 (sanitize_input (PyVal.str s) n) = true) :
    sanitize_input (PyVal.str (sanitize_input (PyVal.str s) n)) n =
      sanitize_input (PyVal.str s) n := by
  by_cases hs : s = []
  · simp [sanitize_input, hs]
  · have he : sanitize_input (PyVal.str s) n = sanitizeCore s n := by
      simp [sanitize_input, hs]
    rw [he] at h ⊢
    by_cases hy : sanitizeCore s n = []
    · simp [sanitize_input, hy]
    · have he2 : sanitize_input (PyVal.str (sanitizeCore s n)) n =
          sanitizeCore (sanitizeCore s n) n := by
        simp [sanitize_input, hy]
      rw [he2]
      exact sanitizeCore_fix s n h

/-- Witness for the amended C1 at a concrete input. -/
theorem sanitize_idempotent_of_no_double_space_witness :
    noWs2 (sanitize_input (PyVal.str ("Hello world".toList)) 100) = true ∧
    sanitize_input
        (PyVal.str (sanitize_input (PyVal.str ("Hello world".toList)) 100)) 100 =
      sanitize_input (PyVal.str ("Hello world".toList)) 100 :=
  ⟨by decide, sanitize_idempotent_of_no_double_space _ _ (by decide)⟩

/-- C1 counterexample: sanitize is not idempotent.  In `"a \x07 b"` the two
single spaces survive whitespace collapsing, the BEL character between them
is removed afterwards, and the result `"a  b"` contains a double space that
a second sanitize pass collapses to `"a b"`. -/
theorem sanitize_not_idempotent_cex :
    sanitize_input (PyVal.str (sanitize_input (PyVal.str ("a \x07 b".toList)) 100)) 100 ≠
      sanitize_input (PyVal.str ("a \x07 b".toList)) 100 := by
  decide
